import Mathlib

/-!
Verification of the CBIR GUI front-end (`gui/cbirGUI.py`): a shallow
embedding of its result-table parser, feature/metric registry, batch
database building, and external-tool outcome classification, together
with theorems about them.

Strings are modelled as Lean `String`s; the Python string primitives the
code uses (`in`, `split()`, `strip()`, `startswith`, `int()`, `float()`)
are embedded as executable functions over `List Char`.  Python `float`
values are modelled as exact rationals (the parser only ever receives
finite decimal literals printed by the query tool).
-/

namespace CBIR

/-- ASCII whitespace, as recognised by Python's `str.split()` / `str.strip()`. -/
def pyWs (c : Char) : Bool :=
  c = ' ' || c = '\t' || c = '\n' || c = '\r' || c = '\x0b' || c = '\x0c'

/-- Truthiness of `line.strip()`: the line has at least one non-whitespace char. -/
def hasNonWs (s : String) : Bool :=
  s.data.any (fun c => !(pyWs c))

/-- `line.startswith('=')`. -/
def pyStartsEq (s : String) : Bool :=
  match s.data with
  | c :: _ => c = '='
  | [] => false

/-- `s.startswith(pat)` on character lists (first argument is the string). -/
def pyStartsWith : List Char → List Char → Bool
  | _, [] => true
  | [], _ :: _ => false
  | c :: s, p :: ps => c = p && pyStartsWith s ps

/-- Python's substring test `pat in s` on character lists. -/
def pyInStr : List Char → List Char → Bool
  | pat, [] => pyStartsWith [] pat
  | pat, c :: t => pyStartsWith (c :: t) pat || pyInStr pat t

/-- Python's `sub in s` on strings. -/
def pyContains (sub s : String) : Bool :=
  pyInStr sub.data s.data

/-- Worker for `str.split()`: accumulates the current word (reversed) in `acc`. -/
def splitWsAux : List Char → List Char → List (List Char)
  | [], acc => if acc = [] then [] else [acc.reverse]
  | c :: t, acc =>
    if pyWs c then
      if acc = [] then splitWsAux t []
      else acc.reverse :: splitWsAux t []
    else splitWsAux t (c :: acc)

/-- Python `line.split()`: split on whitespace runs, discarding empty words. -/
def pySplit (s : String) : List String :=
  (splitWsAux s.data []).map fun l => String.mk l

/-- Worker for `output.split('\n')`. -/
def splitNlAux : List Char → List Char → List (List Char)
  | [], acc => [acc.reverse]
  | c :: t, acc =>
    if c = '\n' then acc.reverse :: splitNlAux t []
    else splitNlAux t (c :: acc)

/-- Python `output.split('\n')`: split on every newline, keeping empty lines. -/
def pyLines (s : String) : List String :=
  (splitNlAux s.data []).map fun l => String.mk l

/-- Numeric value of a digit string (most significant first). -/
def digitsVal (l : List Char) : Nat :=
  l.foldl (fun a c => a * 10 + (c.toNat - 48)) 0

/-- A non-empty all-digit string. -/
def isDigits (l : List Char) : Bool :=
  !(l = []) && l.all Char.isDigit

/-- Python `int(s)` on a whitespace-free token: optional sign then ASCII
digits (Python's underscore digit grouping and non-ASCII digit forms are
outside the model; the tool prints plain decimal ranks). -/
def pyInt (s : String) : Option Int :=
  match s.data with
  | '+' :: rest => if isDigits rest then some (digitsVal rest) else none
  | '-' :: rest => if isDigits rest then some (-(digitsVal rest : Int)) else none
  | l => if isDigits l then some (digitsVal l) else none

/-- Unsigned part of Python `float(s)` with an explicit sign factor:
`digits [. digits] [(e|E) [sign] digits]`, with at least one digit before
or after the point.  The value is the exact rational
`sign * (intpart.fracpart) * 10^exponent`, built with `mkRat`; the
non-finite literals (`inf`, `nan`), which have no rational value, and
underscore digit grouping are outside the model. -/
def pyFloatCore (sign : Int) (l : List Char) : Option ℚ :=
  let ds := l.takeWhile Char.isDigit
  let r1 := l.dropWhile Char.isDigit
  let fr := match r1 with
    | '.' :: t => (t.takeWhile Char.isDigit, t.dropWhile Char.isDigit)
    | _ => ([], r1)
  let fs := fr.1
  let r2 := fr.2
  if ds = [] && fs = [] then none
  else
    let num : Int := sign * (digitsVal ds * 10 ^ fs.length + digitsVal fs : Nat)
    let den : Nat := 10 ^ fs.length
    match r2 with
    | [] => some (mkRat num den)
    | c :: t =>
      if c = 'e' ∨ c = 'E' then
        let st := match t with
          | '+' :: u => ((1 : Int), u)
          | '-' :: u => ((-1 : Int), u)
          | u => ((1 : Int), u)
        let es := st.2.takeWhile Char.isDigit
        let r3 := st.2.dropWhile Char.isDigit
        if es = [] ∨ ¬(r3 = []) then none
        else
          let e : Int := st.1 * (digitsVal es : Int)
          some (if 0 ≤ e then mkRat (num * 10 ^ e.toNat) den
                else mkRat num (den * 10 ^ (-e).toNat))
      else none

/-- Python `float(s)` on a whitespace-free token. -/
def pyFloat (s : String) : Option ℚ :=
  match s.data with
  | '+' :: t => pyFloatCore 1 t
  | '-' :: t => pyFloatCore (-1) t
  | t => pyFloatCore 1 t

/-- Python runtime errors that the row-parsing `try` block can raise:
`parts[i]` out of range, or a failed `int()`/`float()` conversion. -/
inductive PyErr where
  | indexError
  | valueError
deriving DecidableEq, Repr

/-- Python list indexing `l[i]`, raising `IndexError` when out of range. -/
def listIndex (l : List String) (i : Nat) : Except PyErr String :=
  match l.get? i with
  | some x => Except.ok x
  | none => Except.error PyErr.indexError

/-- `int(s)` as a raising operation (`ValueError` on failure). -/
def pyIntE (s : String) : Except PyErr Int :=
  match pyInt s with
  | some n => Except.ok n
  | none => Except.error PyErr.valueError

/-- `float(s)` as a raising operation (`ValueError` on failure). -/
def pyFloatE (s : String) : Except PyErr ℚ :=
  match pyFloat s with
  | some q => Except.ok q
  | none => Except.error PyErr.valueError

/-- One parsed result row: the dict
`{'rank': int, 'filename': str, 'distance': float}` appended to `results`
in `parse_and_display_results`. -/
structure QueryResult where
  rank : Int
  filename : String
  distance : ℚ
deriving DecidableEq, Repr

/-- The body of the `try` block in `parse_and_display_results`:
`rank = int(parts[0]); filename = parts[1]; distance = float(parts[2])`,
in the source's evaluation order. -/
def rowTryBody (parts : List String) : Except PyErr QueryResult := do
  let p0 ← listIndex parts 0
  let rank ← pyIntE p0
  let p1 ← listIndex parts 1
  let p2 ← listIndex parts 2
  let dist ← pyFloatE p2
  pure ⟨rank, p1, dist⟩

/-- Processing of one candidate row: `parts = line.split()`; the
`len(parts) >= 3` guard; then the `try` block, whose bare `except: pass`
turns any raised error into "no record". -/
def parseRow (line : String) : Option QueryResult :=
  let parts := pySplit line
  if 3 ≤ parts.length then
    match rowTryBody parts with
    | Except.ok r => some r
    | Except.error _ => none
  else none

/-- Header detection: `'Rank' in line and 'Filename' in line and 'Distance' in line`. -/
def isHeaderLine (line : String) : Bool :=
  pyContains "Rank" line && pyContains "Filename" line && pyContains "Distance" line

/-- The `for line in lines` loop of `parse_and_display_results`: `inResults`
is the `in_results` flag, `acc` the `results` list built so far; `break`
returns the accumulator. -/
def parseLoop : List String → Bool → List QueryResult → List QueryResult
  | [], _, acc => acc
  | line :: rest, inResults, acc =>
    if isHeaderLine line then parseLoop rest true acc
    else if inResults && hasNonWs line then
      if pyStartsEq line then acc
      else
        match parseRow line with
        | some r => parseLoop rest inResults (acc ++ [r])
        | none => parseLoop rest inResults acc
    else parseLoop rest inResults acc

/-- The parsing phase of `parse_and_display_results` on an already split
line list. -/
def parseLines (lines : List String) : List QueryResult :=
  parseLoop lines false []

/-- The parsing phase of `parse_and_display_results` on the raw tool
output: `lines = output.split('\n')` followed by the scanning loop. -/
def parse_and_display_results (output : String) : List QueryResult :=
  parseLines (pyLines output)

/-- The status line chosen at the end of `parse_and_display_results`:
`"Found {len(results)} matches using {feature}"` when any record was
parsed, `"No results found"` otherwise. -/
def statusMessage (results : List QueryResult) (feature : String) : String :=
  if results.length ≠ 0 then
    "Found " ++ toString results.length ++ " matches using " ++ feature
  else "No results found"

/-- One entry of `self.features_config`: output CSV path, paired distance
metric, and human-readable description. -/
structure FeatureConfig where
  csv : String
  metric : String
  description : String
deriving DecidableEq, Repr

/-- `os.path.join` as used here (POSIX separator). -/
def pathJoin (a b : String) : String := a ++ "/" ++ b

/-- `self.features_dir` from `CBIRGui.__init__`. -/
def features_dir : String := "../bin/data/features"

/-- The `self.features_config` dict built once in `CBIRGui.__init__`, in
source (insertion) order.  It is assigned exactly once and only read
afterwards, so an immutable association list models it. -/
def features_config : List (String × FeatureConfig) :=
  [("baseline",
    ⟨pathJoin features_dir "baseline_features.csv", "ssd",
     "Baseline 7x7 Center Square"⟩),
   ("histogram",
    ⟨pathJoin features_dir "histogram_features.csv", "histogram",
     "RGB Color Histogram"⟩),
   ("chromaticity",
    ⟨pathJoin features_dir "chromaticity_features.csv", "histogram",
     "RG Chromaticity Histogram"⟩),
   ("multihistogram",
    ⟨pathJoin features_dir "multi_features.csv", "multiregion",
     "Multi-Region Histogram (2×2 Grid)"⟩),
   ("texturecolor",
    ⟨pathJoin features_dir "texture_features.csv", "weighted",
     "Sobel Texture + Color"⟩),
   ("gabor",
    ⟨pathJoin features_dir "gabor_features.csv", "gabor",
     "Gabor Texture + Color (Advanced)"⟩),
   ("dnn",
    ⟨pathJoin features_dir "ResNet18_olym.csv", "cosine",
     "ResNet18 DNN Embeddings (Pre-computed)"⟩),
   ("productmatcher",
    ⟨pathJoin features_dir "product_features.csv", "productmatcher",
     "Task 7: DNN(60%) + Center-Color(40%)"⟩),
   ("faceaware",
    ⟨pathJoin features_dir "faceaware_features.csv", "faceaware",
     "Extension: Adaptive Face-Aware Features"⟩)]

/-- Dictionary lookup `self.features_config[feature]`, as performed by
`on_feature_changed`, `build_selected_database` and `find_matches`. -/
def lookupFeature (k : String) : Option FeatureConfig :=
  features_config.lookup k

/-- Outcome of one `subprocess.run` call, as seen by the caller: normal
completion with an exit code and captured output, `TimeoutExpired`, or
any other spawn exception. -/
inductive ProcResult where
  | completed (returncode : Int) (stdout stderr : String)
  | timedOut
  | spawnError (msg : String)
deriving DecidableEq, Repr

/-- The `timeout=300` argument of the `subprocess.run` call in
`build_database`. -/
def build_database_timeout : Nat := 300

/-- The `timeout=60` argument of the `subprocess.run` call in
`find_matches`. -/
def find_matches_timeout : Nat := 60

/-- The boolean returned by `build_database` for a given process
outcome: `True` exactly on `returncode == 0`; the two `except` arms
(`TimeoutExpired` and any other exception) both return `False`. -/
def build_database (r : ProcResult) : Bool :=
  match r with
  | ProcResult.completed rc _ _ => rc == 0
  | ProcResult.timedOut => false
  | ProcResult.spawnError _ => false

/-- What `find_matches` does with the query process outcome: on
`returncode == 0` it parses the captured stdout; on non-zero exit,
timeout, or spawn exception it reports an error and parses nothing. -/
def find_matches (r : ProcResult) : Option (List QueryResult) :=
  match r with
  | ProcResult.completed rc out _ => if rc == 0 then some (parse_and_display_results out) else none
  | ProcResult.timedOut => none
  | ProcResult.spawnError _ => none

/-- The spec's description of the results section, stated as written:
after the first header line, every subsequent non-blank line is a
candidate row until the first line beginning with the banner character
`'='`; rows that fail to parse are dropped.  Kept separate from the
code's loop so the two can be compared. -/
def specSectionParse : List String → List QueryResult
  | [] => []
  | l :: rest =>
    if isHeaderLine l then
      ((rest.takeWhile fun x => !(pyStartsEq x)).filter hasNonWs).filterMap parseRow
    else specSectionParse rest

/-- The amended description of the results section: after the first
header line, the candidate rows are the non-blank lines that do not
themselves match the header test, up to the first non-header line
beginning with `'='` (header-like lines merely re-trigger header
detection and are skipped). -/
def amendedSectionParse : List String → List QueryResult
  | [] => []
  | l :: rest =>
    if isHeaderLine l then
      ((rest.takeWhile fun x => !(!(isHeaderLine x) && pyStartsEq x)).filter
        (fun x => !(isHeaderLine x) && hasNonWs x)).filterMap parseRow
    else amendedSectionParse rest

/-- A line is sign-wellformed when, if it parses as a row at all, the
parsed rank is positive and the parsed distance non-negative (the spec's
QueryResult invariant restated as a condition on the tool's rows). -/
def rowSignOk (l : String) : Bool :=
  match parseRow l with
  | some q => decide (0 < q.rank) && decide (0 ≤ q.distance)
  | none => true

/-- The accumulation loop of `build_all_databases`: fold over the registry
in order, counting successes and appending failed feature names, where
`buildOutcome` gives each `build_database` call's boolean result. -/
def build_all_databases (buildOutcome : String → Bool) : Nat × List String :=
  features_config.foldl
    (fun acc f =>
      if buildOutcome f.1 then (acc.1 + 1, acc.2) else (acc.1, acc.2 ++ [f.1]))
    (0, [])

/-! ### Helper lemmas -/

/-- `pyStartsWith s pat` holds exactly when `pat` is a prefix of `s`. -/
theorem pyStartsWith_iff (pat : List Char) :
    ∀ s, pyStartsWith s pat = true ↔ ∃ r, s = pat ++ r := by
  induction pat with
  | nil =>
    intro s
    cases s <;> simp [pyStartsWith]
  | cons p ps ih =>
    intro s
    cases s with
    | nil =>
      simp [pyStartsWith]
    | cons c t =>
      simp only [pyStartsWith, Bool.and_eq_true, decide_eq_true_eq, ih t,
        List.cons_append, List.cons.injEq]
      constructor
      · rintro ⟨hc, r, hr⟩
        exact ⟨r, hc, hr⟩
      · rintro ⟨r, hc, hr⟩
        exact ⟨hc, r, hr⟩

/-- `pyInStr pat s` holds exactly when `pat` occurs contiguously in `s`. -/
theorem pyInStr_iff (pat : List Char) :
    ∀ s, pyInStr pat s = true ↔ ∃ u v, s = u ++ pat ++ v := by
  intro s
  induction s with
  | nil =>
    simp only [pyInStr, pyStartsWith_iff]
    constructor
    · rintro ⟨r, hr⟩
      rcases List.append_eq_nil.mp hr.symm with ⟨h1, h2⟩
      exact ⟨[], [], by simp [h1, h2]⟩
    · rintro ⟨u, v, huv⟩
      rcases List.append_eq_nil.mp huv.symm with ⟨h1, h2⟩
      rcases List.append_eq_nil.mp h1 with ⟨h3, h4⟩
      exact ⟨[], by simp [h4]⟩
  | cons c t ih =>
    simp only [pyInStr, Bool.or_eq_true, pyStartsWith_iff, ih]
    constructor
    · rintro (⟨r, hr⟩ | ⟨u, v, huv⟩)
      · exact ⟨[], r, by simp [hr]⟩
      · exact ⟨c :: u, v, by simp [huv]⟩
    · rintro ⟨u, v, huv⟩
      cases u with
      | nil =>
        exact Or.inl ⟨v, by simpa using huv⟩
      | cons c' u' =>
        simp only [List.cons_append, List.cons.injEq] at huv
        exact Or.inr ⟨u', v, huv.2⟩

/-! ### C1 and C6: the header test and a well-formed parse -/

/-- C1: on the tool output made of a header line containing "Rank",
"Filename" and "Distance" followed by the rows `1 img1.jpg 0.0000` and
`2 img2.jpg 0.2345`, the parser produces exactly the two records, in
order, with rank/filename/distance `(1, "img1.jpg", 0.0)` and
`(2, "img2.jpg", 0.2345)`. -/
theorem parse_wellformed_two_rows :
    parse_and_display_results
        "Rank  Filename  Distance\n1 img1.jpg 0.0000\n2 img2.jpg 0.2345" =
      [⟨1, "img1.jpg", 0⟩, ⟨2, "img2.jpg", mkRat 2345 10000⟩] := by
  decide

/-- C6: a line is recognised as the header exactly when the strings
"Rank", "Filename" and "Distance" each occur contiguously somewhere in
it — co-occurrence alone, with no constraint on their left-to-right
order. -/
theorem header_recognition (l : String) :
    isHeaderLine l = true ↔
      ((∃ u v, l.data = u ++ "Rank".data ++ v) ∧
       (∃ u v, l.data = u ++ "Filename".data ++ v) ∧
       (∃ u v, l.data = u ++ "Distance".data ++ v)) := by
  simp only [isHeaderLine, pyContains, Bool.and_eq_true, pyInStr_iff]
  tauto

/-- Witness for `header_recognition`: a line carrying the three words in
reversed order is still recognised as the header. -/
theorem header_recognition_witness :
    isHeaderLine "Distance Filename Rank" = true :=
  (header_recognition "Distance Filename Rank").mpr
    ⟨⟨"Distance Filename ".data, "".data, by decide⟩,
     ⟨"Distance ".data, " Rank".data, by decide⟩,
     ⟨"".data, " Filename Rank".data, by decide⟩⟩

/-! ### C4: no header line means zero records -/

/-- While the header has not been seen, the loop only skips lines. -/
theorem parseLoop_false_no_header :
    ∀ (ls : List String) (acc : List QueryResult),
      (∀ l ∈ ls, isHeaderLine l = false) → parseLoop ls false acc = acc := by
  intro ls
  induction ls with
  | nil => intro acc _; rfl
  | cons l rest ih =>
    intro acc h
    have hl : isHeaderLine l = false := h l (List.mem_cons_self l rest)
    have hrest : ∀ x ∈ rest, isHeaderLine x = false :=
      fun x hx => h x (List.mem_cons_of_mem l hx)
    simp only [parseLoop, hl, Bool.false_eq_true, if_false, Bool.false_and,
      ite_false]
    exact ih acc hrest

/-- C4: when no line of the tool output passes the header test, the
parser produces zero records (without raising), and the caller's status
line reports "No results found". -/
theorem no_header_zero_results (output feature : String)
    (h : ∀ l ∈ pyLines output, isHeaderLine l = false) :
    parse_and_display_results output = [] ∧
    statusMessage (parse_and_display_results output) feature = "No results found" := by
  have hp : parse_and_display_results output = [] :=
    parseLoop_false_no_header (pyLines output) [] h
  refine ⟨hp, ?_⟩
  rw [hp]
  rfl

/-- Witness for `no_header_zero_results` at a concrete headerless output. -/
theorem no_header_zero_results_witness :
    parse_and_display_results "1 img1.jpg 0.0\nno header anywhere" = [] ∧
    statusMessage (parse_and_display_results "1 img1.jpg 0.0\nno header anywhere")
      "histogram" = "No results found" :=
  no_header_zero_results "1 img1.jpg 0.0\nno header anywhere" "histogram" (by decide)

/-! ### C7: the batch build attempts everything and reports exact counts -/

/-- Characterisation of the `build_all_databases` fold from any starting
accumulator. -/
theorem build_all_fold (buildOutcome : String → Bool) :
    ∀ (L : List (String × FeatureConfig)) (n : Nat) (fs : List String),
      L.foldl
        (fun acc f =>
          if buildOutcome f.1 then (acc.1 + 1, acc.2) else (acc.1, acc.2 ++ [f.1]))
        (n, fs) =
      (n + (L.filter fun f => buildOutcome f.1).length,
       fs ++ (L.filter fun f => !(buildOutcome f.1)).map Prod.fst) := by
  intro L
  induction L with
  | nil => intro n fs; simp
  | cons a t ih =>
    intro n fs
    by_cases ha : buildOutcome a.1
    · simp [List.foldl_cons, ha, ih, Nat.add_assoc, Nat.add_comm 1]
    · simp [List.foldl_cons, ha, ih]

/-- Counting the two filter outcomes over a list recovers its length. -/
theorem length_filter_pair {α : Type} (p : α → Bool) (L : List α) :
    (L.filter p).length + (L.filter fun x => !(p x)).length = L.length := by
  induction L with
  | nil => rfl
  | cons a t ih =>
    by_cases h : p a <;> simp [List.filter_cons, h] <;> omega

/-- C7: for any per-feature build outcome, the "build all" pass reports a
success count equal to the number of succeeding feature types, lists
exactly the failed feature names (in registry order), and the two
together exhaust the whole registry — every feature type is attempted. -/
theorem build_all_report (buildOutcome : String → Bool) :
    (build_all_databases buildOutcome).1 =
      (features_config.filter fun f => buildOutcome f.1).length ∧
    (build_all_databases buildOutcome).2 =
      ((features_config.filter fun f => !(buildOutcome f.1)).map Prod.fst) ∧
    (build_all_databases buildOutcome).1 +
      (build_all_databases buildOutcome).2.length = features_config.length := by
  have h := build_all_fold buildOutcome features_config 0 []
  unfold build_all_databases
  rw [h]
  refine ⟨by simp, by simp, ?_⟩
  simp only [List.nil_append, Nat.zero_add, List.length_map]
  exact length_filter_pair _ _

/-- Witness for `build_all_report` under the outcome in which only the
"dnn" build succeeds: one success, the other eight names listed. -/
theorem build_all_report_witness :
    (build_all_databases fun k => k == "dnn").1 = 1 ∧
    (build_all_databases fun k => k == "dnn").2 =
      ["baseline", "histogram", "chromaticity", "multihistogram",
       "texturecolor", "gabor", "productmatcher", "faceaware"] := by
  have h := build_all_report fun k => k == "dnn"
  exact ⟨by rw [h.1]; decide, by rw [h.2.1]; decide⟩

/-! ### C8: timeouts and outcome classification -/

/-- C8: the build invocation runs with a 300 second timeout and the query
invocation with a 60 second timeout; each outcome is classified as
success exactly when the process completed with exit code zero, and as
failure on non-zero exit, timeout, or spawn exception. -/
theorem tool_invocation_classification :
    build_database_timeout = 300 ∧ find_matches_timeout = 60 ∧
    (∀ r, build_database r = true ↔
      ∃ out err, r = ProcResult.completed 0 out err) ∧
    (∀ r, (find_matches r).isSome = true ↔
      ∃ out err, r = ProcResult.completed 0 out err) := by
  refine ⟨rfl, rfl, ?_, ?_⟩
  · intro r
    cases r with
    | completed rc out err =>
      simp only [build_database, beq_iff_eq]
      constructor
      · rintro rfl; exact ⟨out, err, rfl⟩
      · rintro ⟨o, e, heq⟩
        cases heq
        rfl
    | timedOut => simp [build_database]
    | spawnError m => simp [build_database]
  · intro r
    cases r with
    | completed rc out err =>
      simp only [find_matches]
      constructor
      · intro h
        by_cases hrc : rc = 0
        · subst hrc
          exact ⟨out, err, rfl⟩
        · rw [if_neg (by simpa using hrc)] at h
          simp at h
      · rintro ⟨o, e, heq⟩
        cases heq
        simp
    | timedOut => simp [find_matches]
    | spawnError m => simp [find_matches]

/-- Witness for `tool_invocation_classification` at a zero-exit
completion. -/
theorem tool_invocation_classification_witness :
    build_database (ProcResult.completed 0 "ok" "") = true ∧
    (find_matches (ProcResult.completed 0 "ok" "")).isSome = true :=
  ⟨(tool_invocation_classification.2.2.1 (ProcResult.completed 0 "ok" "")).mpr
     ⟨"ok", "", rfl⟩,
   (tool_invocation_classification.2.2.2 (ProcResult.completed 0 "ok" "")).mpr
     ⟨"ok", "", rfl⟩⟩

/-! ### C9: the feature/metric registry -/

/-- C9: every successful registry lookup yields a non-empty metric and a
non-empty description; the registry's keys are pairwise distinct, and
entries sharing a key are equal, so each feature key maps to exactly one
metric.  The registry is a single immutable value (the dict is assigned
once in `__init__` and only read afterwards), so repeated lookups are
the same function application and agree by construction. -/
theorem registry_total_nonempty :
    (∀ k cfg, lookupFeature k = some cfg →
      cfg.metric ≠ "" ∧ cfg.description ≠ "") ∧
    (features_config.map Prod.fst).Nodup ∧
    (∀ p ∈ features_config, ∀ q ∈ features_config, p.1 = q.1 → p = q) := by
  refine ⟨?_, by decide, by decide⟩
  intro k cfg h
  simp only [lookupFeature, features_config, List.lookup] at h
  repeat' split at h
  all_goals first
    | (injection h with h2; subst h2; exact ⟨by decide, by decide⟩)
    | exact Option.noConfusion h

/-- Witness for `registry_total_nonempty` at the "baseline" key. -/
theorem registry_total_nonempty_witness :
    ({ csv := pathJoin features_dir "baseline_features.csv", metric := "ssd",
       description := "Baseline 7x7 Center Square" } : FeatureConfig).metric ≠ "" ∧
    ({ csv := pathJoin features_dir "baseline_features.csv", metric := "ssd",
       description := "Baseline 7x7 Center Square" } : FeatureConfig).description ≠ "" :=
  registry_total_nonempty.1 "baseline" _ (by decide)

/-! ### C3: which lines are candidate rows -/

/-- A line starting with `'='` is necessarily non-blank. -/
theorem hasNonWs_of_startsEq (l : String) (h : pyStartsEq l = true) :
    hasNonWs l = true := by
  unfold pyStartsEq at h
  unfold hasNonWs
  cases hd : l.data with
  | nil => rw [hd] at h; exact absurd h (by simp)
  | cons c t =>
    rw [hd] at h
    have hc : c = '=' := by simpa using h
    simp [List.any_cons, hc, pyWs]

/-- Once the header flag is set, the loop's remaining output is: the
non-header non-blank lines before the first non-header banner line, run
through the row parser. -/
theorem parseLoop_true_characterization :
    ∀ (ls : List String) (acc : List QueryResult),
      parseLoop ls true acc =
        acc ++ ((ls.takeWhile fun x => !(!(isHeaderLine x) && pyStartsEq x)).filter
          (fun x => !(isHeaderLine x) && hasNonWs x)).filterMap parseRow := by
  intro ls
  induction ls with
  | nil => intro acc; simp [parseLoop]
  | cons l rest ih =>
    intro acc
    cases hh : isHeaderLine l with
    | true =>
      simp [parseLoop, hh, ih, List.takeWhile_cons, List.filter_cons]
    | false =>
      cases hb : pyStartsEq l with
      | true =>
        have hw := hasNonWs_of_startsEq l hb
        simp [parseLoop, hh, hb, hw, List.takeWhile_cons]
      | false =>
        cases hw : hasNonWs l with
        | true =>
          cases hr : parseRow l with
          | some r =>
            simp [parseLoop, hh, hb, hw, hr, ih, List.takeWhile_cons,
              List.filter_cons, List.filterMap_cons]
          | none =>
            simp [parseLoop, hh, hb, hw, hr, ih, List.takeWhile_cons,
              List.filter_cons, List.filterMap_cons]
        | false =>
          simp [parseLoop, hh, hb, hw, ih, List.takeWhile_cons, List.filter_cons]

/-- C3 counterexample: after the header, the non-blank, non-banner line
`1 RankFilenameDistance.jpg 0.5` would parse as a row (as
`specSectionParse`, the claim read literally, shows), but the code's
loop re-detects it as a header and skips it, producing no record. -/
theorem candidate_row_counterexample :
    specSectionParse ["Rank Filename Distance", "1 RankFilenameDistance.jpg 0.5"] =
      [⟨1, "RankFilenameDistance.jpg", mkRat 1 2⟩] ∧
    parseLines ["Rank Filename Distance", "1 RankFilenameDistance.jpg 0.5"] = [] := by
  decide

/-- C3 amended: after the first header line, every subsequent non-blank
line that does not itself pass the header test is a candidate row, up to
the first non-header line beginning with `'='`; header-like lines are
skipped, and no line at or after that banner line contributes a
record. -/
theorem scanning_loop_characterization (lines : List String) :
    parseLines lines = amendedSectionParse lines := by
  unfold parseLines
  induction lines with
  | nil => rfl
  | cons l rest ih =>
    cases hh : isHeaderLine l with
    | true =>
      simp only [parseLoop, hh, if_true]
      rw [parseLoop_true_characterization rest []]
      simp [amendedSectionParse, hh]
    | false =>
      simp only [parseLoop, hh, Bool.false_eq_true, if_false, Bool.false_and,
        ite_false]
      rw [ih]
      simp [amendedSectionParse, hh]

/-! ### C2: signs of parsed ranks and distances -/

/-- Every record the loop emits either was already in the accumulator or
is the successful row-parse of one of the scanned lines. -/
theorem mem_parseLoop :
    ∀ (ls : List String) (b : Bool) (acc : List QueryResult) (q : QueryResult),
      q ∈ parseLoop ls b acc → q ∈ acc ∨ ∃ l ∈ ls, parseRow l = some q := by
  intro ls
  induction ls with
  | nil =>
    intro b acc q hq
    exact Or.inl hq
  | cons l rest ih =>
    intro b acc q hq
    have lift : (q ∈ acc ∨ ∃ x ∈ rest, parseRow x = some q) →
        q ∈ acc ∨ ∃ x ∈ l :: rest, parseRow x = some q := by
      rintro (h | ⟨x, hx, hpx⟩)
      · exact Or.inl h
      · exact Or.inr ⟨x, List.mem_cons_of_mem l hx, hpx⟩
    cases hh : isHeaderLine l with
    | true =>
      rw [parseLoop, if_pos hh] at hq
      exact lift (ih true acc q hq)
    | false =>
      rw [parseLoop, if_neg (by simp [hh])] at hq
      cases hbw : (b && hasNonWs l) with
      | false =>
        rw [if_neg (by simp [hbw])] at hq
        exact lift (ih b acc q hq)
      | true =>
        rw [if_pos hbw] at hq
        cases hban : pyStartsEq l with
        | true =>
          rw [if_pos hban] at hq
          exact Or.inl hq
        | false =>
          rw [if_neg (by simp [hban])] at hq
          cases hr : parseRow l with
          | some r =>
            rw [hr] at hq
            rcases ih b (acc ++ [r]) q hq with hacc | hrest
            · rcases List.mem_append.mp hacc with h | h
              · exact Or.inl h
              · have : q = r := by simpa using h
                exact Or.inr ⟨l, List.mem_cons_self l rest, by rw [hr, this]⟩
            · exact lift (Or.inr hrest)
          | none =>
            rw [hr] at hq
            exact lift (ih b acc q hq)

/-- C2 counterexample: on the tool output whose single row is
`0 img.jpg -1.5`, the parser emits a record with rank `0` (not positive)
and distance `-1.5` (negative) — the parser enforces no sign
constraint. -/
theorem record_sign_counterexample :
    parse_and_display_results "Rank Filename Distance\n0 img.jpg -1.5" =
      [⟨0, "img.jpg", mkRat (-3) 2⟩] ∧
    ¬(0 < (⟨0, "img.jpg", mkRat (-3) 2⟩ : QueryResult).rank ∧
      0 ≤ (⟨0, "img.jpg", mkRat (-3) 2⟩ : QueryResult).distance) := by
  decide

/-- C2 amended: every record's rank and distance are the parsed first and
third tokens of some input line, so whenever every line that parses as a
row carries a positive rank and a non-negative distance, every produced
record has a positive rank and a non-negative distance. -/
theorem record_sign_conditional (output : String)
    (h : (pyLines output).all rowSignOk = true) :
    ∀ q ∈ parse_and_display_results output, 0 < q.rank ∧ 0 ≤ q.distance := by
  intro q hq
  rcases mem_parseLoop (pyLines output) false [] q hq with hacc | ⟨l, hl, hp⟩
  · exact absurd hacc (List.not_mem_nil q)
  · have hOk := List.all_eq_true.mp h l hl
    unfold rowSignOk at hOk
    rw [hp] at hOk
    simp only [Bool.and_eq_true, decide_eq_true_eq] at hOk
    exact hOk

/-- Witness for `record_sign_conditional` on a sign-wellformed output. -/
theorem record_sign_conditional_witness :
    0 < (⟨1, "img1.jpg", mkRat 1 2⟩ : QueryResult).rank ∧
    0 ≤ (⟨1, "img1.jpg", mkRat 1 2⟩ : QueryResult).distance :=
  record_sign_conditional "Rank Filename Distance\n1 img1.jpg 0.5" (by decide)
    ⟨1, "img1.jpg", mkRat 1 2⟩ (by decide)

/-! ### C5: malformed rows are dropped, neighbours survive -/

/-- Reduction of a successful `Except` bind. -/
theorem exceptBind_ok {α β : Type} (a : α) (f : α → Except PyErr β) :
    (Except.ok a >>= f : Except PyErr β) = f a := rfl

/-- Reduction of a failed `Except` bind. -/
theorem exceptBind_error {α β : Type} (e : PyErr) (f : α → Except PyErr β) :
    (Except.error e >>= f : Except PyErr β) = Except.error e := rfl

/-- Reduction of `Functor.map` on a successful `Except`. -/
theorem exceptMap_ok {α β : Type} (g : α → β) (a : α) :
    (g <$> (Except.ok a : Except PyErr α)) = Except.ok (g a) := rfl

/-- Reduction of `Functor.map` on a failed `Except`. -/
theorem exceptMap_error {α β : Type} (g : α → β) (e : PyErr) :
    (g <$> (Except.error e : Except PyErr α)) = Except.error e := rfl

/-- With at least three tokens, the `try` block reduces to the two
conversions: a failed `int()` or `float()` raises `ValueError`,
otherwise the record is built. -/
theorem rowTryBody_cons (p0 p1 p2 : String) (rest : List String) :
    rowTryBody (p0 :: p1 :: p2 :: rest) =
      (match pyInt p0 with
       | none => Except.error PyErr.valueError
       | some n =>
         match pyFloat p2 with
         | none => Except.error PyErr.valueError
         | some d => Except.ok ⟨n, p1, d⟩) := by
  cases hpi : pyInt p0 with
  | none =>
    simp [rowTryBody, listIndex, pyIntE, hpi, exceptBind_ok, exceptBind_error]
  | some n =>
    cases hpf : pyFloat p2 with
    | none =>
      simp [rowTryBody, listIndex, pyIntE, pyFloatE, hpi, hpf, exceptBind_ok,
        exceptBind_error, exceptMap_error]
    | some d =>
      simp [rowTryBody, listIndex, pyIntE, pyFloatE, hpi, hpf, exceptBind_ok,
        exceptMap_ok]

/-- A failing first conversion makes the whole `try` block raise
`ValueError`, whatever follows. -/
theorem rowTryBody_first_bad (p0 : String) (t : List String)
    (h : pyInt p0 = none) :
    rowTryBody (p0 :: t) = Except.error PyErr.valueError := by
  simp [rowTryBody, listIndex, pyIntE, h, exceptBind_ok, exceptBind_error]

/-- Splitting an all-whitespace character list yields no words. -/
theorem splitWsAux_eq_nil (l : List Char) (h : ∀ c ∈ l, pyWs c = true) :
    splitWsAux l [] = [] := by
  induction l with
  | nil => rfl
  | cons c t ih =>
    have hc := h c (List.mem_cons_self c t)
    simp only [splitWsAux, hc, if_true, ite_true]
    exact ih fun x hx => h x (List.mem_cons_of_mem c hx)

/-- A line that splits into at least one token has a non-whitespace
character. -/
theorem hasNonWs_of_pySplit_ne_nil (l : String) (h : pySplit l ≠ []) :
    hasNonWs l = true := by
  by_contra hcon
  rw [Bool.not_eq_true] at hcon
  unfold hasNonWs at hcon
  rw [List.any_eq_false] at hcon
  have hall : ∀ c ∈ l.data, pyWs c = true := by
    intro c hc
    have := hcon c hc
    simpa using this
  exact h (by unfold pySplit; rw [splitWsAux_eq_nil _ hall]; rfl)

/-- With a non-empty current word, the splitter's first output word
extends that word. -/
theorem splitWsAux_first_word :
    ∀ (t acc : List Char), acc ≠ [] →
      ∃ w rest, splitWsAux t acc = (acc.reverse ++ w) :: rest := by
  intro t
  induction t with
  | nil =>
    intro acc h
    exact ⟨[], [], by simp [splitWsAux, h]⟩
  | cons c t ih =>
    intro acc h
    cases hc : pyWs c with
    | true =>
      exact ⟨[], splitWsAux t [], by simp [splitWsAux, hc, h]⟩
    | false =>
      rcases ih (c :: acc) (by simp) with ⟨w, rest, hw⟩
      refine ⟨c :: w, rest, ?_⟩
      have hstep : splitWsAux (c :: t) acc = splitWsAux t (c :: acc) := by
        simp [splitWsAux, hc]
      rw [hstep, hw]
      simp

/-- A token whose first character is `'='` is not an integer literal. -/
theorem pyInt_eq_char_none (w : List Char) :
    pyInt (String.mk ('=' :: w)) = none := by
  simp [pyInt, isDigits]

/-- A line beginning with the banner character never parses as a row:
its first token starts with `'='`, which `int()` rejects. -/
theorem parseRow_banner_none (l : String) (h : pyStartsEq l = true) :
    parseRow l = none := by
  unfold pyStartsEq at h
  cases hd : l.data with
  | nil => rw [hd] at h; exact absurd h (by simp)
  | cons c t =>
    rw [hd] at h
    have hc : c = '=' := by simpa using h
    subst hc
    rcases splitWsAux_first_word t ['='] (by simp) with ⟨w, rest, hw⟩
    have hps : pySplit l = String.mk ('=' :: w) :: rest.map (fun x => String.mk x) := by
      unfold pySplit
      rw [hd]
      have h1 : splitWsAux ('=' :: t) [] = splitWsAux t ['='] := by
        simp [splitWsAux, pyWs]
      rw [h1, hw]
      simp
    unfold parseRow
    rw [hps]
    by_cases hlen : 3 ≤ (String.mk ('=' :: w) :: rest.map (fun x => String.mk x)).length
    · rw [if_pos hlen]
      rw [rowTryBody_first_bad _ _ (pyInt_eq_char_none w)]
    · rw [if_neg hlen]

/-- A successfully parsed row is a non-blank line. -/
theorem parseRow_some_nonblank {l : String} {q : QueryResult}
    (h : parseRow l = some q) : hasNonWs l = true := by
  apply hasNonWs_of_pySplit_ne_nil
  intro hnil
  unfold parseRow at h
  rw [hnil] at h
  simp at h

/-- A successfully parsed row does not begin with the banner character. -/
theorem parseRow_some_not_banner {l : String} {q : QueryResult}
    (h : parseRow l = some q) : pyStartsEq l = false := by
  cases hb : pyStartsEq l with
  | false => rfl
  | true => rw [parseRow_banner_none l hb] at h; exact Option.noConfusion h

/-- The three drop conditions of the claim each force the row parser to
produce no record. -/
theorem parseRow_none_of_malformed (l : String)
    (h : (pySplit l).length < 3 ∨ pyInt ((pySplit l).getD 0 "") = none ∨
      pyFloat ((pySplit l).getD 2 "") = none) :
    parseRow l = none := by
  unfold parseRow
  by_cases hlen : 3 ≤ (pySplit l).length
  · rw [if_pos hlen]
    cases hsp : pySplit l with
    | nil => rw [hsp] at hlen; simp at hlen
    | cons p0 t0 =>
      cases t0 with
      | nil => rw [hsp] at hlen; simp at hlen
      | cons p1 t1 =>
        cases t1 with
        | nil => rw [hsp] at hlen; simp at hlen
        | cons p2 rest =>
          rw [hsp] at h
          rw [rowTryBody_cons]
          rcases h with h | h
          · simp at h; omega
          · have h' : pyInt p0 = none ∨ pyFloat p2 = none := by
              simpa [List.getD] using h
            rcases h' with h' | h'
            · rw [h']
            · cases hpi : pyInt p0 with
              | none => rfl
              | some n => rw [h']
  · rw [if_neg hlen]

/-- C5: inside the results section, a candidate row with fewer than three
tokens, a non-integer first token, or a non-float third token is silently
dropped, while well-formed rows before and after it still yield their
records, in order. -/
theorem malformed_row_dropped (hline r1 bad r2 : String) (q1 q2 : QueryResult)
    (hh : isHeaderLine hline = true)
    (h1hdr : isHeaderLine r1 = false) (h1 : parseRow r1 = some q1)
    (hbhdr : isHeaderLine bad = false) (hbban : pyStartsEq bad = false)
    (hbad : (pySplit bad).length < 3 ∨ pyInt ((pySplit bad).getD 0 "") = none ∨
      pyFloat ((pySplit bad).getD 2 "") = none)
    (h2hdr : isHeaderLine r2 = false) (h2 : parseRow r2 = some q2) :
    parseLines [hline, r1, bad, r2] = [q1, q2] := by
  have hbrow : parseRow bad = none := parseRow_none_of_malformed bad hbad
  have h1nb : hasNonWs r1 = true := parseRow_some_nonblank h1
  have h1ban : pyStartsEq r1 = false := parseRow_some_not_banner h1
  have h2nb : hasNonWs r2 = true := parseRow_some_nonblank h2
  have h2ban : pyStartsEq r2 = false := parseRow_some_not_banner h2
  cases hbnb : hasNonWs bad with
  | false =>
    simp [parseLines, parseLoop, hh, h1hdr, h1nb, h1ban, h1, hbhdr, hbnb,
      h2hdr, h2nb, h2ban, h2]
  | true =>
    simp [parseLines, parseLoop, hh, h1hdr, h1nb, h1ban, h1, hbhdr, hbban,
      hbnb, hbrow, h2hdr, h2nb, h2ban, h2]

/-- Witness for `malformed_row_dropped`: the one-token row `oops` between
two well-formed rows is dropped, the neighbours survive. -/
theorem malformed_row_dropped_witness :
    parseLines ["Rank Filename Distance", "1 img1.jpg 0.0", "oops",
      "2 img2.jpg 0.25"] = [⟨1, "img1.jpg", 0⟩, ⟨2, "img2.jpg", mkRat 1 4⟩] :=
  malformed_row_dropped "Rank Filename Distance" "1 img1.jpg 0.0" "oops"
    "2 img2.jpg 0.25" ⟨1, "img1.jpg", 0⟩ ⟨2, "img2.jpg", mkRat 1 4⟩
    (by decide) (by decide) (by decide) (by decide) (by decide)
    (Or.inl (by decide)) (by decide) (by decide)

/-! ### C10: totality and absence of runtime errors -/

/-- Each scanned line appends at most one record, so the loop's output is
bounded by the number of input lines. -/
theorem parseLoop_length_le :
    ∀ (ls : List String) (b : Bool) (acc : List QueryResult),
      (parseLoop ls b acc).length ≤ acc.length + ls.length := by
  intro ls
  induction ls with
  | nil => intro b acc; simp [parseLoop]
  | cons l rest ih =>
    intro b acc
    cases hh : isHeaderLine l with
    | true =>
      simp only [parseLoop, hh, if_true, List.length_cons]
      have := ih true acc
      omega
    | false =>
      simp only [parseLoop, hh, Bool.false_eq_true, if_false, List.length_cons]
      cases hbw : (b && hasNonWs l) with
      | false =>
        rw [if_neg (by simp)]
        have := ih b acc
        omega
      | true =>
        rw [if_pos rfl]
        cases hban : pyStartsEq l with
        | true =>
          rw [if_pos rfl]
          omega
        | false =>
          rw [if_neg (by simp)]
          cases hr : parseRow l with
          | some r =>
            have := ih b (acc ++ [r])
            simp only [List.length_append, List.length_cons, List.length_nil] at this
            simp only
            omega
          | none =>
            have := ih b acc
            simp only
            omega

/-- Under the three-token guard, the `try` block can only raise
`ValueError` (from `int()`/`float()`), never `IndexError`: the guard
keeps every index in range. -/
theorem rowTryBody_no_indexError (parts : List String) (h : 3 ≤ parts.length) :
    rowTryBody parts ≠ Except.error PyErr.indexError := by
  cases parts with
  | nil => simp at h
  | cons p0 t0 =>
    cases t0 with
    | nil => simp at h
    | cons p1 t1 =>
      cases t1 with
      | nil => simp at h
      | cons p2 rest =>
        rw [rowTryBody_cons]
        cases hpi : pyInt p0 with
        | none => simp
        | some n =>
          cases hpf : pyFloat p2 with
          | none => simp
          | some d => simp

/-- C10: on every input string the parse is a total function whose output
list has at most one record per input line, and under the three-token
guard the row-level `try` block never raises `IndexError` — any failure
it can raise is a conversion `ValueError`, which the bare `except`
absorbs. -/
theorem parser_total_safe (output : String) :
    (parse_and_display_results output).length ≤ (pyLines output).length ∧
    (∀ parts : List String, 3 ≤ parts.length →
      rowTryBody parts ≠ Except.error PyErr.indexError) := by
  constructor
  · have h := parseLoop_length_le (pyLines output) false []
    simpa using h
  · exact fun parts hp => rowTryBody_no_indexError parts hp

/-- Witness for `parser_total_safe` at a concrete output and token
list. -/
theorem parser_total_safe_witness :
    (parse_and_display_results "Rank Filename Distance\n1 a.jpg 0.5").length ≤
      (pyLines "Rank Filename Distance\n1 a.jpg 0.5").length ∧
    rowTryBody ["1", "a.jpg", "0.5"] ≠ Except.error PyErr.indexError :=
  ⟨(parser_total_safe "Rank Filename Distance\n1 a.jpg 0.5").1,
   (parser_total_safe "Rank Filename Distance\n1 a.jpg 0.5").2
     ["1", "a.jpg", "0.5"] (by decide)⟩

end CBIR


